import Mathlib

/-!
# Verification of the SSL exporter (`main.go`)

A shallow embedding of the Go program in `src/main.go`, which probes the TLS
certificate validity window of configured domains and publishes two gauges
(`cert_start`, `cert_expiry`) per domain.

Embedding choices:
* Go `time.Time` becomes `GoTime`, seconds since January 1 of year 1 (UTC);
  `GoTime.Unix` subtracts the Unix-epoch offset exactly as Go's `time` package
  computes it.
* `time.Parse` with the fixed layout `"Jan 2 15:04:05 2006 MST"` becomes
  `timeParse`, modelling the Go parser chunk by chunk: month lookup, flexible
  spaces, 1-2 digit day/hour, 2-digit minute/second, the fractional-second
  tolerance after the seconds chunk, 4-digit year, and the timezone step with
  its `UTC`-prefix special case, `GMT±h` offsets, bare signed offsets, and
  letter abbreviations.  One deployment assumption: the process-local zone
  resolves no abbreviation names (`TZ=UTC`, the common server setup), so a
  non-`GMT±h` zone name fabricates Go's zero-offset fixed zone.
* The external `openssl` pipeline invoked by `getSSLCertDates` is modelled by
  an `ExecResult` value (non-zero exit with an error, or exit zero with the
  captured stdout); `updateMetrics` receives the external world as a function
  from domain to `ExecResult`.
* The Prometheus gauge vectors become association lists from the `domain`
  label to the Unix-second value (an `Int`; the Go code stores
  `float64(t.Unix())`, exact for these magnitudes).
* `main`'s startup sequence and the background refresh loop become an explicit
  event trace, fuel-indexed for the infinite loop.
-/

namespace SSLExporter

/-! ## The Go time model -/

/-- Seconds from January 1 of year 1 to the Unix epoch, computed by the same
formula as Go's `time` package (`unixToInternal`). -/
def unixToInternal : Int :=
  ((1969 * 365 + 1969 / 4 - 1969 / 100 + 1969 / 400) * 86400 : Nat)

/-- A UTC instant: seconds since January 1 of year 1, as stored by Go's
`time.Time` for zone-less parsed times. -/
structure GoTime where
  sec : Int
deriving DecidableEq

/-- The zero value of Go's `time.Time`. -/
def zeroTime : GoTime := ⟨0⟩

/-- Go's `Time.Unix`: seconds since the Unix epoch. -/
def GoTime.Unix (t : GoTime) : Int := t.sec - unixToInternal

/-- Days in each month of a non-leap year. -/
def monthLengths : List Nat := [31, 28, 31, 30, 31, 30, 31, 31, 30, 31, 30, 31]

/-- Gregorian leap-year rule, as in Go's `isLeap`. -/
def isLeap (year : Nat) : Bool := year % 4 == 0 && (year % 100 != 0 || year % 400 == 0)

/-- Number of days in the given month of the given year (Go's `daysIn`). -/
def daysIn (month year : Nat) : Nat :=
  if month == 2 && isLeap year then 29 else monthLengths.getD (month - 1) 0

/-- Cumulative days before each month in a non-leap year. -/
def daysBefore : List Nat := [0, 31, 59, 90, 120, 151, 181, 212, 243, 273, 304, 334]

/-- Days from January 1 of year 1 to the given civil date, following Go's
`Date` normalisation.  Floor division makes the 4/100/400-year cycle counts
agree with Go's `daysSinceEpoch` for every parser-accepted year, including
`0000` (year 0 is a 366-day leap year preceding year 1). -/
def daysSinceYearOne (year month day : Nat) : Int :=
  let y : Int := (year : Int) - 1
  365 * y + Int.fdiv y 4 - Int.fdiv y 100 + Int.fdiv y 400 +
    ((daysBefore.getD (month - 1) 0 : Nat) : Int) +
    (if decide (2 < month) && isLeap year then 1 else 0) + ((day : Int) - 1)

/-- Build a `GoTime` from civil fields interpreted at UTC offset 0 (Go
fabricates a zero-offset zone for abbreviations such as `MST` that the local
zone does not resolve; a `GMT±h` zone offset is subtracted separately). -/
def mkGoTime (year month day hour minute sec : Nat) : GoTime :=
  ⟨daysSinceYearOne year month day * 86400 + ((hour * 3600 + minute * 60 + sec : Nat) : Int)⟩

/-! ## `time.Parse` with layout `"Jan 2 15:04:05 2006 MST"` -/

/-- Decimal digit value of a character. -/
def digitVal (c : Char) : Nat := c.toNat - '0'.toNat

/-- Go's `getnum`: one or two digits, two required when `fixed`. -/
def getnum (s : List Char) (fixed : Bool) : Option (Nat × List Char) :=
  match s with
  | [] => none
  | [c1] => if c1.isDigit && !fixed then some (digitVal c1, []) else none
  | c1 :: c2 :: rest =>
    if c1.isDigit then
      if c2.isDigit then some (digitVal c1 * 10 + digitVal c2, rest)
      else if fixed then none
      else some (digitVal c1, c2 :: rest)
    else none

/-- Go's abbreviated month names, in order. -/
def shortMonthNames : List String :=
  ["Jan", "Feb", "Mar", "Apr", "May", "Jun", "Jul", "Aug", "Sep", "Oct", "Nov", "Dec"]

/-- Go's `match`: byte equality up to OR-ing in bit `0x20` (ASCII case fold). -/
def matchCI : List Char → List Char → Bool
  | [], [] => true
  | c1 :: r1, c2 :: r2 => ((c1.toNat ||| 32) == (c2.toNat ||| 32)) && matchCI r1 r2
  | _, _ => false

/-- Go's `lookup` over a name table: first case-insensitive prefix match wins,
returning the table index and the rest of the input. -/
def lookupNameFrom : Nat → List String → List Char → Option (Nat × List Char)
  | _, [], _ => none
  | i, name :: rest, s =>
    let n := name.toList
    if decide (n.length ≤ s.length) && matchCI n (s.take n.length) then
      some (i, s.drop n.length)
    else lookupNameFrom (i + 1) rest s

/-- Month lookup (0-based index). -/
def lookupMonth (s : List Char) : Option (Nat × List Char) := lookupNameFrom 0 shortMonthNames s

/-- Go's `skip` on a single layout space: a nonempty value must start with a
space; all leading spaces are then consumed (`cutspace`). -/
def skipSpace : List Char → Option (List Char)
  | [] => some []
  | c :: rest => if c == ' ' then some (rest.dropWhile (· == ' ')) else none

/-- Require one exact separator character. -/
def expectChar (c : Char) : List Char → Option (List Char)
  | [] => none
  | c' :: rest => if c' == c then some rest else none

/-- Go's `stdLongYear`: exactly four digits. -/
def getYear : List Char → Option (Nat × List Char)
  | c1 :: c2 :: c3 :: c4 :: rest =>
    if c1.isDigit && c2.isDigit && c3.isDigit && c4.isDigit then
      some (((digitVal c1 * 10 + digitVal c2) * 10 + digitVal c3) * 10 + digitVal c4, rest)
    else none
  | _ => none

/-- Decimal value of a digit run (Go's `leadingInt`/`atoi` on the digits a
signed offset consumes; arbitrary precision, so an int64 overflow in Go is
subsumed by the `> 23` hour bound below). -/
def digitsVal (ds : List Char) : Nat := ds.foldl (fun a c => a * 10 + digitVal c) 0

/-- Go's `parseSignedOffset`: a sign, then at least one digit whose value is
at most 23; returns the number of characters consumed, 0 on failure. -/
def parseSignedOffset (s : List Char) : Nat :=
  match s with
  | [] => 0
  | c :: rest =>
    if c == '+' || c == '-' then
      let ds := rest.takeWhile Char.isDigit
      if ds.isEmpty then 0
      else if decide (23 < digitsVal ds) then 0
      else 1 + ds.length
    else 0

/-- Go's `parseGMT`: `GMT` optionally followed by a signed hour offset. -/
def parseGMT (s : List Char) : Nat :=
  let rest := s.drop 3
  if rest.isEmpty then 3 else 3 + parseSignedOffset rest

/-- Go's `parseTimeZone` (length of the zone token consumed): the `ChST` and
`MeST` lower-case special cases, `GMT` with optional signed offset, bare
signed offsets, and otherwise three to five upper-case letters with the
trailing-`T` rules. -/
def parseTimeZone (s : List Char) : Option Nat :=
  if decide (s.length < 3) then none
  else if s.take 4 == "ChST".toList || s.take 4 == "MeST".toList then some 4
  else if s.take 3 == "GMT".toList then some (parseGMT s)
  else if s.getD 0 ' ' == '+' || s.getD 0 ' ' == '-' then
    (if parseSignedOffset s == 0 then none else some (parseSignedOffset s))
  else
    let nUpper := ((s.take 6).takeWhile Char.isUpper).length
    if nUpper == 5 then (if s.getD 4 ' ' == 'T' then some 5 else none)
    else if nUpper == 4 then
      (if s.getD 3 ' ' == 'T' || s.take 4 == "WITA".toList then some 4 else none)
    else if nUpper == 3 then some 3
    else none

/-- The zone offset Go's `Parse` attaches to a fabricated zone: for a name
`GMT` followed by a signed hour count, that count in seconds (`atoi` of the
remainder times 3600); zero for every other name (the local zone — assumed
`UTC` — resolves no abbreviation). -/
def zoneOffset (zoneName : List Char) : Int :=
  if zoneName.take 3 == "GMT".toList && decide (3 < zoneName.length) then
    (match zoneName.drop 3 with
     | '-' :: ds => -((digitsVal ds : Nat) : Int)
     | '+' :: ds => ((digitsVal ds : Nat) : Int)
     | _ => 0) * 3600
  else 0

/-- The range checks Go's `Parse` performs (hour, minute, second bounds and
the day-of-month validation against the month's length). -/
def validDate (monthIdx day hour minute sec year : Nat) : Bool :=
  decide (hour < 24) && decide (minute < 60) && decide (sec < 60) &&
  decide (1 ≤ day) && decide (day ≤ daysIn (monthIdx + 1) year)

/-- Go's fractional-second tolerance in the seconds chunk: with no
fractional chunk in the layout, a `.` or `,` followed by a digit is consumed
together with the whole digit run (`parseNanoseconds` never fails on it, and
the sub-second value cannot reach `Unix()`). -/
def fracSecondSkip : List Char → List Char
  | c1 :: c2 :: rest =>
    if (c1 == '.' || c1 == ',') && c2.isDigit then (c2 :: rest).dropWhile Char.isDigit
    else c1 :: c2 :: rest
  | s => s

/-- The `15:04:05` chunk sequence: hour, `:`, zero-padded minute, `:`,
zero-padded second, then the fractional-second tolerance. -/
def clockChunk (r4 : List Char) : Option ((Nat × Nat × Nat) × List Char) :=
  (getnum r4 false).bind (fun (p5 : Nat × List Char) =>
  (expectChar ':' p5.2).bind (fun (r6 : List Char) =>
  (getnum r6 true).bind (fun (p7 : Nat × List Char) =>
  (expectChar ':' p7.2).bind (fun (r8 : List Char) =>
  (getnum r8 true).bind (fun (p9 : Nat × List Char) =>
  some ((p5.1, p7.1, p9.1), fracSecondSkip p9.2))))))

/-- Go's `stdTZ` step: a literal `UTC` prefix is consumed first (exactly
three characters, offset 0); otherwise `parseTimeZone` picks off the zone
token and the fabricated zone's offset comes from `zoneOffset`. -/
def tzChunk (r12 : List Char) : Option (Int × List Char) :=
  if r12.take 3 == "UTC".toList then some (0, r12.drop 3)
  else
    (parseTimeZone r12).bind (fun (n : Nat) =>
      some (zoneOffset (r12.take n), r12.drop n))

/-- The trailing `2006 MST` chunk sequence: space, four-digit year, space,
zone token; returns the year, the zone's offset in seconds, and whatever
follows the zone. -/
def yearZoneChunk (r9 : List Char) : Option ((Nat × Int) × List Char) :=
  (skipSpace r9).bind (fun (r10 : List Char) =>
  (getYear r10).bind (fun (p11 : Nat × List Char) =>
  (skipSpace p11.2).bind (fun (r12 : List Char) =>
  (tzChunk r12).bind (fun (pz : Int × List Char) =>
  some ((p11.1, pz.1), pz.2)))))

/-- Model of Go `time.Parse("Jan 2 15:04:05 2006 MST", ·)`: chunk sequence,
range checks, the day-of-month validation, and the zone offset subtraction,
yielding a UTC instant. -/
def timeParseCore (s : List Char) : Option GoTime :=
  (lookupMonth s).bind (fun (p1 : Nat × List Char) =>
  (skipSpace p1.2).bind (fun (r2 : List Char) =>
  (getnum r2 false).bind (fun (p3 : Nat × List Char) =>
  (skipSpace p3.2).bind (fun (r4 : List Char) =>
  (clockChunk r4).bind (fun (pc : (Nat × Nat × Nat) × List Char) =>
  (yearZoneChunk pc.2).bind (fun (py : (Nat × Int) × List Char) =>
  if py.2.isEmpty && validDate p1.1 p3.1 pc.1.1 pc.1.2.1 pc.1.2.2 py.1.1 then
    some ⟨(mkGoTime py.1.1 (p1.1 + 1) p3.1 pc.1.1 pc.1.2.1 pc.1.2.2).sec - py.1.2⟩
  else none))))))

/-- `time.Parse` as used by `getSSLCertDates`: an `Except` whose error carries
the offending input, mirroring Go's `*ParseError`. -/
def timeParse (cs : List Char) : Except String GoTime :=
  match timeParseCore cs with
  | some t => Except.ok t
  | none => Except.error ("parsing time " ++ String.mk cs)

/-! ## The probe: `getSSLCertDates` -/

/-- `strings.Split(output, "\n")` at the character level: every newline
separates, so `n` newlines yield `n + 1` pieces (possibly empty). -/
def splitLines : List Char → List (List Char)
  | [] => [[]]
  | c :: rest =>
    match splitLines rest with
    | [] => [[]]
    | l :: ls => if c == '\n' then [] :: l :: ls else (c :: l) :: ls

/-- The characters of the `notBefore=` line marker. -/
def nbList : List Char := "notBefore=".toList

/-- The characters of the `notAfter=` line marker. -/
def naList : List Char := "notAfter=".toList

/-- The line scan of `getSSLCertDates`: walk the split output, overwriting
`start` on every `notBefore=` line and `expiry` on every `notAfter=` line,
returning the first parse error encountered. -/
def scanCertLines : List (List Char) → GoTime → GoTime → Except String (GoTime × GoTime)
  | [], start, expiry => Except.ok (start, expiry)
  | line :: rest, start, expiry =>
    if nbList.isPrefixOf line then
      match timeParse (line.drop nbList.length) with
      | Except.ok t => scanCertLines rest t expiry
      | Except.error e => Except.error e
    else if naList.isPrefixOf line then
      match timeParse (line.drop naList.length) with
      | Except.ok t => scanCertLines rest start t
      | Except.error e => Except.error e
    else scanCertLines rest start expiry

/-- Result of the external `openssl` pipeline for one domain: a non-zero exit
(the `err` of `cmd.Output()`), or exit zero together with captured stdout. -/
inductive ExecResult where
  | failure (msg : String)
  | success (output : String)

/-- `getSSLCertDates`, given the external call's result: propagate an exec
failure, otherwise split the output on newlines and scan, starting both dates
from the zero `time.Time`. -/
def getSSLCertDates : ExecResult → Except String (GoTime × GoTime)
  | ExecResult.failure msg => Except.error msg
  | ExecResult.success output => scanCertLines (splitLines output.toList) zeroTime zeroTime

/-! ## The domain list loader: `readDomains` -/

/-- Go's `unicode.IsSpace` (the Unicode `White_Space` set). -/
def goIsSpace (c : Char) : Bool :=
  c == ' ' || c == '\t' || c == '\n' || c == '\x0b' || c == '\x0c' || c == '\r' ||
  c == '\x85' || c == '\xa0' || c == '\u1680' ||
  (decide (0x2000 ≤ c.toNat) && decide (c.toNat ≤ 0x200a)) ||
  c == '\u2028' || c == '\u2029' || c == '\u202f' || c == '\u205f' || c == '\u3000'

/-- `strings.TrimSpace`: drop whitespace from both ends. -/
def trimSpace (s : String) : String :=
  String.mk (((s.toList.dropWhile goIsSpace).reverse.dropWhile goIsSpace).reverse)

/-- `strings.HasPrefix` at the string level. -/
def hasPfx (pfx s : String) : Bool := pfx.toList.isPrefixOf s.toList

/-- The scanner loop of `readDomains`, accumulating kept lines in order. -/
def readDomainsLoop : List String → List String → List String
  | [], domains => domains
  | raw :: rest, domains =>
    let line := trimSpace raw
    if line != "" && !(hasPfx "#" line) then readDomainsLoop rest (domains ++ [line])
    else readDomainsLoop rest domains

/-- `readDomains`, on the file's lines: keep each trimmed line that is
non-empty and not a `#` comment. -/
def readDomains (lines : List String) : List String := readDomainsLoop lines []

/-! ## The metrics registry and `updateMetrics` -/

/-- Set a labelled gauge value: overwrite the entry for the domain if present,
otherwise append it. -/
def setGauge : List (String × Int) → String → Int → List (String × Int)
  | [], d, v => [(d, v)]
  | (d', v') :: rest, d, v =>
    if d' == d then (d, v) :: rest else (d', v') :: setGauge rest d v

/-- Read a labelled gauge value. -/
def getGauge : List (String × Int) → String → Option Int
  | [], _ => none
  | (d', v') :: rest, d => if d' == d then some v' else getGauge rest d

/-- The process-wide registry: the `cert_start` and `cert_expiry` gauge
vectors, each keyed by the `domain` label. -/
structure Registry where
  certStart : List (String × Int)
  certExpiry : List (String × Int)
deriving DecidableEq

/-- The registry right after `init` registers the two empty gauge vectors. -/
def emptyRegistry : Registry := ⟨[], []⟩

/-- `updateMetrics`: probe each domain in order; on error, log and continue
with the registry untouched; on success, set both gauges to the Unix seconds
of the parsed instants. -/
def updateMetrics (env : String → ExecResult) : List String → Registry → Registry
  | [], reg => reg
  | domain :: rest, reg =>
    match getSSLCertDates (env domain) with
    | Except.error _ => updateMetrics env rest reg
    | Except.ok (start, expiry) =>
        updateMetrics env rest
          ⟨setGauge reg.certStart domain start.Unix, setGauge reg.certExpiry domain expiry.Unix⟩

/-! ## `main`: startup order and the refresh loop, as an event trace -/

/-- Observable scheduling events of `main` and the refresh goroutine. -/
inductive SchedEvent where
  | loadDomains
  | refreshCycle
  | spawnRefreshLoop
  | startServer
  | sleepSeconds (n : Nat)
deriving DecidableEq

/-- The body of the spawned goroutine `for { time.Sleep(6 * time.Hour);
updateMetrics(domains) }`, unrolled for a given number of iterations. -/
def refreshLoopTrace : Nat → List SchedEvent
  | 0 => []
  | n + 1 => SchedEvent.sleepSeconds (6 * 3600) :: SchedEvent.refreshCycle :: refreshLoopTrace n

/-- The statements `main` executes in order before blocking in
`ListenAndServe`: read the config, run the first cycle synchronously, spawn
the refresh goroutine, start the HTTP server. -/
def startupEvents : List SchedEvent :=
  [SchedEvent.loadDomains, SchedEvent.refreshCycle, SchedEvent.spawnRefreshLoop,
   SchedEvent.startServer]

/-- The scheduler-side trace of the process: `main`'s startup sequence
followed by the goroutine's sleep/cycle alternation (`main` itself stays
blocked serving HTTP). -/
def mainTrace (cycles : Nat) : List SchedEvent := startupEvents ++ refreshLoopTrace cycles

/-! ## Specification-side characterisations -/

instance {ε α : Type} [DecidableEq ε] [DecidableEq α] : DecidableEq (Except ε α) := fun x y =>
  match x, y with
  | Except.ok a, Except.ok b =>
    if h : a = b then isTrue (by rw [h]) else isFalse (fun he => h (Except.ok.inj he))
  | Except.error a, Except.error b =>
    if h : a = b then isTrue (by rw [h]) else isFalse (fun he => h (Except.error.inj he))
  | Except.ok _, Except.error _ => isFalse (fun he => Except.noConfusion he)
  | Except.error _, Except.ok _ => isFalse (fun he => Except.noConfusion he)

/-- `true` exactly on successful `Except` results. -/
def isOkE {α : Type} : Except String α → Bool
  | Except.ok _ => true
  | Except.error _ => false

/-- Every marker this line carries parses successfully. -/
abbrev goodLine (l : List Char) : Prop :=
  (nbList.isPrefixOf l = true → isOkE (timeParse (l.drop nbList.length)) = true) ∧
  (naList.isPrefixOf l = true → isOkE (timeParse (l.drop naList.length)) = true)

/-- This line carries a marker whose remainder fails to parse. -/
abbrev badLine (l : List Char) : Prop :=
  (nbList.isPrefixOf l = true ∧ isOkE (timeParse (l.drop nbList.length)) = false) ∨
  (naList.isPrefixOf l = true ∧ isOkE (timeParse (l.drop naList.length)) = false)

/-! ## Parser fidelity checks

Concrete evaluations pinning `timeParse` to the behavior of Go's
`time.Parse` on the layout's edge cases: `GMT±h` zones are accepted and
shift the instant, fractional seconds are tolerated without a fractional
layout chunk, a `UTC` prefix is consumed as exactly three characters (so
`UTCT` leaves extra text and fails), bare signed offsets name a zero-offset
zone, and year `0000` is a genuine year-0 instant. -/

theorem timeParse_gmt_minus_offset :
    timeParse ("Jan 2 15:04:05 2006 GMT-5".toList) =
      Except.ok ⟨(mkGoTime 2006 1 2 15 4 5).sec + 18000⟩ := by decide

theorem timeParse_gmt_plus_offset :
    timeParse ("Jan 2 15:04:05 2006 GMT+5".toList) =
      Except.ok ⟨(mkGoTime 2006 1 2 15 4 5).sec - 18000⟩ := by decide

theorem timeParse_fractional_second :
    timeParse ("Jan 2 15:04:05.5 2006 GMT".toList) =
      Except.ok (mkGoTime 2006 1 2 15 4 5) := by decide

theorem timeParse_utc_prefix_exact :
    isOkE (timeParse ("Jan 2 15:04:05 2006 UTCT".toList)) = false ∧
    timeParse ("Jan 2 15:04:05 2006 UTC".toList) =
      Except.ok (mkGoTime 2006 1 2 15 4 5) := by
  exact ⟨by decide, by decide⟩

theorem timeParse_bare_signed_offset_zero :
    timeParse ("Jan 2 15:04:05 2006 +05".toList) =
      Except.ok (mkGoTime 2006 1 2 15 4 5) := by decide

theorem timeParse_gmt_bad_offset_rejected :
    isOkE (timeParse ("Jan 2 15:04:05 2006 GMT-24".toList)) = false ∧
    isOkE (timeParse ("Jan 2 15:04:05 2006 GMT5".toList)) = false := by
  exact ⟨by decide, by decide⟩

theorem timeParse_year_zero :
    timeParse ("Jan 2 15:04:05 0000 GMT".toList) = Except.ok (mkGoTime 0 1 2 15 4 5) ∧
    (mkGoTime 1 1 2 15 4 5).sec - (mkGoTime 0 1 2 15 4 5).sec = 366 * 86400 := by
  exact ⟨by decide, by decide⟩

theorem timeParse_reference_values :
    timeParse ("Jan 2 15:04:05 2006 MST".toList) = Except.ok (mkGoTime 2006 1 2 15 4 5) ∧
    (mkGoTime 2006 1 2 15 4 5).Unix = 1136214245 ∧
    (mkGoTime 2024 1 1 0 0 0).Unix = 1704067200 := by
  exact ⟨by decide, by decide, by decide⟩

/-! ## Helper lemmas -/

theorem isPrefixOf_iff {l₁ l₂ : List Char} : l₁.isPrefixOf l₂ = true ↔ l₁ <+: l₂ := by
  induction l₁ generalizing l₂ with
  | nil => simp [List.isPrefixOf]
  | cons a as ih =>
    cases l₂ with
    | nil => simp [List.isPrefixOf]
    | cons b bs => simp [List.isPrefixOf, List.cons_prefix_cons, ih]

theorem nb_not_na {l : List Char} (h : nbList.isPrefixOf l = true) :
    naList.isPrefixOf l = false := by
  obtain ⟨t, rfl⟩ := isPrefixOf_iff.mp h
  rfl

theorem na_not_nb {l : List Char} (h : naList.isPrefixOf l = true) :
    nbList.isPrefixOf l = false := by
  obtain ⟨t, rfl⟩ := isPrefixOf_iff.mp h
  rfl

/-! ## Claim theorems -/

/-- Claim C1, counterexample: an external call that exits zero with empty
output makes the probe return success (with zero-value instants), not an
error, contradicting the claim that no output always yields a Probe Error. -/
theorem probe_empty_output_succeeds_cex :
    getSSLCertDates (ExecResult.success "") = Except.ok (zeroTime, zeroTime) := rfl

/-- Claim C1, amended: the probe fails with a Probe Error exactly when the
external call exits non-zero; an exit-zero call with empty output succeeds,
yielding zero-value instants for both dates. -/
theorem probe_fails_exactly_on_exec_failure :
    (∀ msg, getSSLCertDates (ExecResult.failure msg) = Except.error msg) ∧
    getSSLCertDates (ExecResult.success "") = Except.ok (zeroTime, zeroTime) :=
  ⟨fun _ => rfl, rfl⟩

theorem readDomainsLoop_eq (lines : List String) : ∀ acc,
    readDomainsLoop lines acc =
      acc ++ ((lines.map trimSpace).filter fun l => l != "" && !(hasPfx "#" l)) := by
  induction lines with
  | nil => intro acc; simp [readDomainsLoop]
  | cons raw rest ih =>
    intro acc
    by_cases h : (trimSpace raw != "" && !(hasPfx "#" (trimSpace raw))) = true
    · simp [readDomainsLoop, h, ih, List.filter_cons]
    · have h' : (trimSpace raw != "" && !(hasPfx "#" (trimSpace raw))) = false := by
        simpa using h
      simp [readDomainsLoop, h', ih, List.filter_cons]

/-- Claim C2: `readDomains` returns exactly the lines that, once trimmed of
surrounding whitespace, are non-empty and do not start with `#`, each
returned trimmed, in file order, duplicates preserved (the loop is equal to
trimming every line and filtering, which keeps order and multiplicity). -/
theorem readDomains_filters_trimmed_lines (lines : List String) :
    readDomains lines =
      (lines.map trimSpace).filter fun l => l != "" && !(hasPfx "#" l) := by
  simpa using readDomainsLoop_eq lines []

theorem scan_no_match (lines : List (List Char))
    (h : ∀ l ∈ lines, nbList.isPrefixOf l = false ∧ naList.isPrefixOf l = false) :
    ∀ s e, scanCertLines lines s e = Except.ok (s, e) := by
  induction lines with
  | nil => intro s e; rfl
  | cons l rest ih =>
    intro s e
    have hl := h l (List.mem_cons_self l rest)
    have hrest : ∀ x ∈ rest, nbList.isPrefixOf x = false ∧ naList.isPrefixOf x = false :=
      fun x hx => h x (List.mem_cons_of_mem l hx)
    simp [scanCertLines, hl.1, hl.2, ih hrest]

/-- Claim C7: when the external call exits zero and its output contains no
`notBefore=` line and no `notAfter=` line, the parse step returns the
zero-value instant for both dates and raises no error; probe failure is
governed solely by the external call's exit status (a non-zero exit is the
only error source). -/
theorem probe_no_matching_lines_zero_instants :
    (∀ output : String,
       (∀ l ∈ splitLines output.toList,
          nbList.isPrefixOf l = false ∧ naList.isPrefixOf l = false) →
       getSSLCertDates (ExecResult.success output) = Except.ok (zeroTime, zeroTime)) ∧
    (∀ msg, getSSLCertDates (ExecResult.failure msg) = Except.error msg) := by
  constructor
  · intro output h
    exact scan_no_match (splitLines output.toList) h zeroTime zeroTime
  · intro msg; rfl

/-- Witness for C7 at a concrete output with no matching lines. -/
theorem probe_no_matching_lines_zero_instants_witness :
    getSSLCertDates (ExecResult.success "depth=2 C=US\nverify return:1") =
      Except.ok (zeroTime, zeroTime) :=
  probe_no_matching_lines_zero_instants.1 "depth=2 C=US\nverify return:1" (by decide)

theorem getGauge_setGauge_self (g : List (String × Int)) (d : String) (v : Int) :
    getGauge (setGauge g d v) d = some v := by
  induction g with
  | nil => simp [setGauge, getGauge]
  | cons p rest ih =>
    obtain ⟨d', v'⟩ := p
    by_cases h : (d' == d) = true
    · simp [setGauge, getGauge, h]
    · have h' : (d' == d) = false := by simpa using h
      simp [setGauge, getGauge, h', ih]

theorem getGauge_setGauge_ne (g : List (String × Int)) (d a : String) (v : Int)
    (h : d ≠ a) : getGauge (setGauge g d v) a = getGauge g a := by
  have hda : (d == a) = false := beq_eq_false_iff_ne.mpr h
  induction g with
  | nil => simp [setGauge, getGauge, hda]
  | cons p rest ih =>
    obtain ⟨d', v'⟩ := p
    by_cases hd : (d' == d) = true
    · have : d' = d := eq_of_beq hd
      subst this
      simp [setGauge, getGauge, hd, hda]
    · have hd' : (d' == d) = false := by simpa using hd
      simp [setGauge, getGauge, hd', ih]

/-- Claim C10: when the external call exits zero and its output carries
neither marker line, the cycle treats the probe as a success and publishes
both gauges for that domain with the Unix seconds of the zero instant,
`-62135596800`, overwriting whatever the registry previously held for it. -/
theorem cycle_publishes_zero_instants_on_unmatched_output
    (env : String → ExecResult) (d : String) (output : String) (reg : Registry)
    (henv : env d = ExecResult.success output)
    (hnone : ∀ l ∈ splitLines output.toList,
       nbList.isPrefixOf l = false ∧ naList.isPrefixOf l = false) :
    getSSLCertDates (env d) = Except.ok (zeroTime, zeroTime) ∧
    zeroTime.Unix = -62135596800 ∧
    getGauge (updateMetrics env [d] reg).certStart d = some (-62135596800) ∧
    getGauge (updateMetrics env [d] reg).certExpiry d = some (-62135596800) := by
  have hok : getSSLCertDates (env d) = Except.ok (zeroTime, zeroTime) := by
    rw [henv]
    exact scan_no_match (splitLines output.toList) hnone zeroTime zeroTime
  have hz : zeroTime.Unix = -62135596800 := by decide
  refine ⟨hok, hz, ?_, ?_⟩
  · simp [updateMetrics, hok, hz, getGauge_setGauge_self]
  · simp [updateMetrics, hok, hz, getGauge_setGauge_self]

/-- Witness for C10: a previously recorded good value for the domain is
overwritten by the zero-instant value. -/
theorem cycle_publishes_zero_instants_witness :
    getSSLCertDates ((fun _ => ExecResult.success "TLS handshake OK") "example.com") =
      Except.ok (zeroTime, zeroTime) ∧
    zeroTime.Unix = -62135596800 ∧
    getGauge (updateMetrics (fun _ => ExecResult.success "TLS handshake OK") ["example.com"]
        ⟨[("example.com", 1704067200)], [("example.com", 1735689600)]⟩).certStart "example.com"
      = some (-62135596800) ∧
    getGauge (updateMetrics (fun _ => ExecResult.success "TLS handshake OK") ["example.com"]
        ⟨[("example.com", 1704067200)], [("example.com", 1735689600)]⟩).certExpiry "example.com"
      = some (-62135596800) :=
  cycle_publishes_zero_instants_on_unmatched_output
    (fun _ => ExecResult.success "TLS handshake OK") "example.com" "TLS handshake OK"
    ⟨[("example.com", 1704067200)], [("example.com", 1735689600)]⟩ rfl (by decide)

/-- Claim C4: within a refresh cycle a failed probe only skips its domain
(the cycle continues with the rest, registry untouched for that step); after
one cycle over `[a, b]` where `a` succeeds and `b`'s external call fails, the
registry holds `cert_start` and `cert_expiry` gauges for `a` and no entry for
`b`. -/
theorem updateMetrics_skips_failed_domain :
    (∀ (env : String → ExecResult) (d : String) (rest : List String) (reg : Registry)
       (e : String), getSSLCertDates (env d) = Except.error e →
       updateMetrics env (d :: rest) reg = updateMetrics env rest reg) ∧
    (∀ (env : String → ExecResult) (a b : String) (s t : GoTime) (msg : String),
       getSSLCertDates (env a) = Except.ok (s, t) →
       getSSLCertDates (env b) = Except.error msg → b ≠ a →
       getGauge (updateMetrics env [a, b] emptyRegistry).certStart a = some s.Unix ∧
       getGauge (updateMetrics env [a, b] emptyRegistry).certExpiry a = some t.Unix ∧
       getGauge (updateMetrics env [a, b] emptyRegistry).certStart b = none ∧
       getGauge (updateMetrics env [a, b] emptyRegistry).certExpiry b = none) := by
  constructor
  · intro env d rest reg e h
    simp [updateMetrics, h]
  · intro env a b s t msg ha hb hba
    have hab : (a == b) = false := beq_eq_false_iff_ne.mpr (fun h => hba h.symm)
    simp [updateMetrics, ha, hb, emptyRegistry, setGauge, getGauge, hab]

/-- Witness for C4 at a concrete environment over domains `[a, b]`. -/
theorem updateMetrics_skips_failed_domain_witness :
    getGauge (updateMetrics
        (fun d => if d = "a" then
            ExecResult.success "notBefore=Jan 2 15:04:05 2006 MST\nnotAfter=Feb 3 00:00:00 2026 GMT\n"
          else ExecResult.failure "connect: connection refused")
        ["a", "b"] emptyRegistry).certStart "a" = some ((mkGoTime 2006 1 2 15 4 5).Unix) ∧
    getGauge (updateMetrics
        (fun d => if d = "a" then
            ExecResult.success "notBefore=Jan 2 15:04:05 2006 MST\nnotAfter=Feb 3 00:00:00 2026 GMT\n"
          else ExecResult.failure "connect: connection refused")
        ["a", "b"] emptyRegistry).certExpiry "a" = some ((mkGoTime 2026 2 3 0 0 0).Unix) ∧
    getGauge (updateMetrics
        (fun d => if d = "a" then
            ExecResult.success "notBefore=Jan 2 15:04:05 2006 MST\nnotAfter=Feb 3 00:00:00 2026 GMT\n"
          else ExecResult.failure "connect: connection refused")
        ["a", "b"] emptyRegistry).certStart "b" = none ∧
    getGauge (updateMetrics
        (fun d => if d = "a" then
            ExecResult.success "notBefore=Jan 2 15:04:05 2006 MST\nnotAfter=Feb 3 00:00:00 2026 GMT\n"
          else ExecResult.failure "connect: connection refused")
        ["a", "b"] emptyRegistry).certExpiry "b" = none :=
  updateMetrics_skips_failed_domain.2
    (fun d => if d = "a" then
        ExecResult.success "notBefore=Jan 2 15:04:05 2006 MST\nnotAfter=Feb 3 00:00:00 2026 GMT\n"
      else ExecResult.failure "connect: connection refused")
    "a" "b" (mkGoTime 2006 1 2 15 4 5) (mkGoTime 2026 2 3 0 0 0)
    "connect: connection refused" (by decide) (by decide) (by decide)

theorem updateMetrics_preserves_error_domain (env : String → ExecResult) (a msg : String)
    (hfail : getSSLCertDates (env a) = Except.error msg) :
    ∀ (domains : List String) (reg : Registry),
      getGauge (updateMetrics env domains reg).certStart a = getGauge reg.certStart a ∧
      getGauge (updateMetrics env domains reg).certExpiry a = getGauge reg.certExpiry a := by
  intro domains
  induction domains with
  | nil => intro reg; simp [updateMetrics]
  | cons d rest ih =>
    intro reg
    cases hd : getSSLCertDates (env d) with
    | error e =>
      simpa [updateMetrics, hd] using ih reg
    | ok p =>
      obtain ⟨s, t⟩ := p
      have hda : d ≠ a := by
        rintro rfl
        rw [hfail] at hd
        cases hd
      have h1 := ih ⟨setGauge reg.certStart d s.Unix, setGauge reg.certExpiry d t.Unix⟩
      constructor
      · calc getGauge (updateMetrics env (d :: rest) reg).certStart a
            = getGauge (setGauge reg.certStart d s.Unix) a := by
              simpa [updateMetrics, hd] using h1.1
          _ = getGauge reg.certStart a := getGauge_setGauge_ne _ _ _ _ hda
      · calc getGauge (updateMetrics env (d :: rest) reg).certExpiry a
            = getGauge (setGauge reg.certExpiry d t.Unix) a := by
              simpa [updateMetrics, hd] using h1.2
          _ = getGauge reg.certExpiry a := getGauge_setGauge_ne _ _ _ _ hda

/-- Claim C5: a domain whose probe succeeds in cycle 1 and fails in cycle 2
keeps exactly its cycle-1 gauge values after cycle 2 — a failed probe
modifies no gauge and nothing evicts stale values (regardless of what the
other domains in the cycle do). -/
theorem updateMetrics_failed_probe_preserves_gauges
    (env1 env2 : String → ExecResult) (domains : List String) (reg0 : Registry)
    (a msg : String) (s t : GoTime)
    (_hcycle1 : getSSLCertDates (env1 a) = Except.ok (s, t))
    (hcycle2 : getSSLCertDates (env2 a) = Except.error msg) :
    getGauge (updateMetrics env2 domains (updateMetrics env1 domains reg0)).certStart a
      = getGauge (updateMetrics env1 domains reg0).certStart a ∧
    getGauge (updateMetrics env2 domains (updateMetrics env1 domains reg0)).certExpiry a
      = getGauge (updateMetrics env1 domains reg0).certExpiry a :=
  updateMetrics_preserves_error_domain env2 a msg hcycle2 domains
    (updateMetrics env1 domains reg0)

/-- Witness for C5: domain `a` succeeds in cycle 1, fails in cycle 2; its
cycle-1 values are still readable after cycle 2. -/
theorem updateMetrics_failed_probe_preserves_gauges_witness :
    (getGauge (updateMetrics (fun _ => ExecResult.failure "timeout") ["a"]
        (updateMetrics
          (fun _ => ExecResult.success "notBefore=Jan 2 15:04:05 2006 MST\nnotAfter=Feb 3 00:00:00 2026 GMT\n")
          ["a"] emptyRegistry)).certStart "a"
      = getGauge (updateMetrics
          (fun _ => ExecResult.success "notBefore=Jan 2 15:04:05 2006 MST\nnotAfter=Feb 3 00:00:00 2026 GMT\n")
          ["a"] emptyRegistry).certStart "a" ∧
     getGauge (updateMetrics (fun _ => ExecResult.failure "timeout") ["a"]
        (updateMetrics
          (fun _ => ExecResult.success "notBefore=Jan 2 15:04:05 2006 MST\nnotAfter=Feb 3 00:00:00 2026 GMT\n")
          ["a"] emptyRegistry)).certExpiry "a"
      = getGauge (updateMetrics
          (fun _ => ExecResult.success "notBefore=Jan 2 15:04:05 2006 MST\nnotAfter=Feb 3 00:00:00 2026 GMT\n")
          ["a"] emptyRegistry).certExpiry "a") ∧
    getGauge (updateMetrics
        (fun _ => ExecResult.success "notBefore=Jan 2 15:04:05 2006 MST\nnotAfter=Feb 3 00:00:00 2026 GMT\n")
        ["a"] emptyRegistry).certStart "a" = some 1136214245 :=
  ⟨updateMetrics_failed_probe_preserves_gauges
      (fun _ => ExecResult.success "notBefore=Jan 2 15:04:05 2006 MST\nnotAfter=Feb 3 00:00:00 2026 GMT\n")
      (fun _ => ExecResult.failure "timeout") ["a"] emptyRegistry "a" "timeout"
      (mkGoTime 2006 1 2 15 4 5) (mkGoTime 2026 2 3 0 0 0) (by decide) rfl,
    by decide⟩

theorem scan_error_at (pre : List (List Char)) (l : List Char) (post : List (List Char))
    (e : String) (hpre : ∀ x ∈ pre, goodLine x)
    (hl : (nbList.isPrefixOf l = true ∧ timeParse (l.drop nbList.length) = Except.error e) ∨
          (nbList.isPrefixOf l = false ∧ naList.isPrefixOf l = true ∧
           timeParse (l.drop naList.length) = Except.error e)) :
    ∀ s t, scanCertLines (pre ++ l :: post) s t = Except.error e := by
  induction pre with
  | nil =>
    intro s t
    rcases hl with ⟨hb, he⟩ | ⟨hb, ha, he⟩
    · simp [scanCertLines, hb, he]
    · simp [scanCertLines, hb, ha, he]
  | cons x pre ih =>
    intro s t
    have hx := hpre x (List.mem_cons_self x pre)
    have hpre' : ∀ y ∈ pre, goodLine y := fun y hy => hpre y (List.mem_cons_of_mem x hy)
    cases hb : nbList.isPrefixOf x with
    | true =>
      obtain ⟨u, hu⟩ : ∃ u, timeParse (x.drop nbList.length) = Except.ok u := by
        have hko := hx.1 hb
        cases htp : timeParse (x.drop nbList.length) with
        | ok u => exact ⟨u, rfl⟩
        | error e' => rw [htp] at hko; simp [isOkE] at hko
      simpa [scanCertLines, hb, hu] using ih hpre' u t
    | false =>
      cases ha : naList.isPrefixOf x with
      | true =>
        obtain ⟨u, hu⟩ : ∃ u, timeParse (x.drop naList.length) = Except.ok u := by
          have hko := hx.2 ha
          cases htp : timeParse (x.drop naList.length) with
          | ok u => exact ⟨u, rfl⟩
          | error e' => rw [htp] at hko; simp [isOkE] at hko
        simpa [scanCertLines, hb, ha, hu] using ih hpre' s u
      | false =>
        simpa [scanCertLines, hb, ha] using ih hpre' s t

/-- Claim C9 (implicit): the scan returns at the first marker line whose
remainder fails to parse — every earlier marker line parsing, the probe
yields exactly that line's parse error, for any continuation of the output
(the lines after it, quantified arbitrarily here, are never consulted), so a
later well-formed occurrence of the same marker is never reached. -/
theorem probe_aborts_at_first_malformed (output : String) (pre : List (List Char))
    (l : List Char) (post : List (List Char)) (e : String)
    (hsplit : splitLines output.toList = pre ++ l :: post)
    (hpre : ∀ x ∈ pre, goodLine x)
    (hl : (nbList.isPrefixOf l = true ∧ timeParse (l.drop nbList.length) = Except.error e) ∨
          (nbList.isPrefixOf l = false ∧ naList.isPrefixOf l = true ∧
           timeParse (l.drop naList.length) = Except.error e)) :
    getSSLCertDates (ExecResult.success output) = Except.error e := by
  show scanCertLines (splitLines output.toList) zeroTime zeroTime = Except.error e
  rw [hsplit]
  exact scan_error_at pre l post e hpre hl zeroTime zeroTime

/-- Witness for C9: the first `notBefore=` line is malformed, the second is
well-formed; the probe returns the first line's parse error. -/
theorem probe_aborts_at_first_malformed_witness :
    getSSLCertDates (ExecResult.success "notBefore=bad\nnotBefore=Jan 2 15:04:05 2006 MST") =
      Except.error "parsing time bad" :=
  probe_aborts_at_first_malformed "notBefore=bad\nnotBefore=Jan 2 15:04:05 2006 MST"
    [] ("notBefore=bad".toList) ["notBefore=Jan 2 15:04:05 2006 MST".toList]
    "parsing time bad" (by decide) (by decide) (by decide)

theorem scan_error_of_bad (lines : List (List Char)) :
    ∀ s t, (∃ l, l ∈ lines ∧ badLine l) →
      ∃ e, scanCertLines lines s t = Except.error e := by
  induction lines with
  | nil =>
    rintro s t ⟨l, hl, -⟩
    simp at hl
  | cons x rest ih =>
    rintro s t ⟨l, hl, hbad⟩
    cases hb : nbList.isPrefixOf x with
    | true =>
      cases htp : timeParse (x.drop nbList.length) with
      | error e => exact ⟨e, by simp [scanCertLines, hb, htp]⟩
      | ok u =>
        rcases List.mem_cons.mp hl with rfl | hmem
        · exfalso
          rcases hbad with ⟨-, hko⟩ | ⟨hna, -⟩
          · rw [htp] at hko; simp [isOkE] at hko
          · rw [nb_not_na hb] at hna; exact Bool.noConfusion hna
        · obtain ⟨e, he⟩ := ih u t ⟨l, hmem, hbad⟩
          exact ⟨e, by simpa [scanCertLines, hb, htp] using he⟩
    | false =>
      cases ha : naList.isPrefixOf x with
      | true =>
        cases htp : timeParse (x.drop naList.length) with
        | error e => exact ⟨e, by simp [scanCertLines, hb, ha, htp]⟩
        | ok u =>
          rcases List.mem_cons.mp hl with rfl | hmem
          · exfalso
            rcases hbad with ⟨hnb, -⟩ | ⟨-, hko⟩
            · rw [hb] at hnb; exact Bool.noConfusion hnb
            · rw [htp] at hko; simp [isOkE] at hko
          · obtain ⟨e, he⟩ := ih s u ⟨l, hmem, hbad⟩
            exact ⟨e, by simpa [scanCertLines, hb, ha, htp] using he⟩
      | false =>
        rcases List.mem_cons.mp hl with rfl | hmem
        · exfalso
          rcases hbad with ⟨hnb, -⟩ | ⟨hna, -⟩
          · rw [hb] at hnb; exact Bool.noConfusion hnb
          · rw [ha] at hna; exact Bool.noConfusion hna
        · obtain ⟨e, he⟩ := ih s t ⟨l, hmem, hbad⟩
          exact ⟨e, by simpa [scanCertLines, hb, ha] using he⟩

/-- Claim C6: an output containing a marker line whose remainder does not
conform to the date layout makes the probe fail with a Parse Error, and any
probe failure only skips that one domain inside `updateMetrics` — the cycle
goes on with the remaining domains unchanged. -/
theorem probe_malformed_date_parse_error :
    (∀ (output : String) (l : List Char), l ∈ splitLines output.toList → badLine l →
       ∃ e, getSSLCertDates (ExecResult.success output) = Except.error e) ∧
    (∀ (env : String → ExecResult) (d : String) (rest : List String) (reg : Registry)
       (e : String), getSSLCertDates (env d) = Except.error e →
       updateMetrics env (d :: rest) reg = updateMetrics env rest reg) := by
  constructor
  · intro output l hmem hbad
    exact scan_error_of_bad (splitLines output.toList) zeroTime zeroTime ⟨l, hmem, hbad⟩
  · intro env d rest reg e h
    simp [updateMetrics, h]

/-- Witness for C6: a malformed `notAfter=` line makes the probe error, and a
failing domain is skipped by the cycle. -/
theorem probe_malformed_date_parse_error_witness :
    (∃ e, getSSLCertDates
        (ExecResult.success "notBefore=Jan 2 15:04:05 2006 MST\nnotAfter=nonsense") =
      Except.error e) ∧
    updateMetrics (fun _ => ExecResult.failure "boom") ["b", "c"] emptyRegistry =
      updateMetrics (fun _ => ExecResult.failure "boom") ["c"] emptyRegistry :=
  ⟨probe_malformed_date_parse_error.1
      "notBefore=Jan 2 15:04:05 2006 MST\nnotAfter=nonsense"
      ("notAfter=nonsense".toList) (by decide) (by decide),
    probe_malformed_date_parse_error.2 (fun _ => ExecResult.failure "boom") "b" ["c"]
      emptyRegistry "boom" rfl⟩

theorem refreshLoopTrace_get (n : Nat) : ∀ k, k < n →
    (refreshLoopTrace n).get? (2 * k) = some (SchedEvent.sleepSeconds 21600) ∧
    (refreshLoopTrace n).get? (2 * k + 1) = some SchedEvent.refreshCycle := by
  induction n with
  | zero => intro k hk; exact absurd hk (Nat.not_lt_zero k)
  | succ n ih =>
    intro k hk
    cases k with
    | zero => exact ⟨rfl, rfl⟩
    | succ k' =>
      have h := ih k' (Nat.lt_of_succ_lt_succ hk)
      constructor
      · rw [show 2 * (k' + 1) = 2 * k' + 1 + 1 from by ring]
        simp only [refreshLoopTrace, List.get?_cons_succ]
        exact h.1
      · rw [show 2 * (k' + 1) + 1 = 2 * k' + 1 + 1 + 1 from by ring]
        simp only [refreshLoopTrace, List.get?_cons_succ]
        exact h.2

/-- Claim C8: the startup order is load domains, first refresh cycle
(synchronous), spawn the background refresh loop, start the HTTP server; and
after startup the trace alternates a fixed 21600-second (6-hour) sleep with a
refresh cycle, each sleep measured from the end of the previous step, for as
many iterations as the loop is unrolled. -/
theorem main_startup_order_and_refresh_loop (cycles : Nat) :
    (mainTrace cycles).take 4 =
      [SchedEvent.loadDomains, SchedEvent.refreshCycle, SchedEvent.spawnRefreshLoop,
       SchedEvent.startServer] ∧
    (∀ k, k < cycles →
      (mainTrace cycles).get? (4 + 2 * k) = some (SchedEvent.sleepSeconds 21600) ∧
      (mainTrace cycles).get? (5 + 2 * k) = some SchedEvent.refreshCycle) := by
  constructor
  · rfl
  · intro k hk
    have h := refreshLoopTrace_get cycles k hk
    have hlen : startupEvents.length = 4 := rfl
    constructor
    · rw [mainTrace, List.get?_append_right (by omega)]
      rw [show 4 + 2 * k - startupEvents.length = 2 * k from by rw [hlen]; omega]
      exact h.1
    · rw [mainTrace, List.get?_append_right (by omega)]
      rw [show 5 + 2 * k - startupEvents.length = 2 * k + 1 from by rw [hlen]; omega]
      exact h.2

/-- Witness for C8 with the loop unrolled twice: the second iteration's sleep
and cycle sit at trace positions 6 and 7. -/
theorem main_startup_order_and_refresh_loop_witness :
    (mainTrace 2).take 4 =
      [SchedEvent.loadDomains, SchedEvent.refreshCycle, SchedEvent.spawnRefreshLoop,
       SchedEvent.startServer] ∧
    (mainTrace 2).get? (4 + 2 * 1) = some (SchedEvent.sleepSeconds 21600) ∧
    (mainTrace 2).get? (5 + 2 * 1) = some SchedEvent.refreshCycle :=
  ⟨(main_startup_order_and_refresh_loop 2).1,
    ((main_startup_order_and_refresh_loop 2).2 1 (by decide)).1,
    ((main_startup_order_and_refresh_loop 2).2 1 (by decide)).2⟩

end SSLExporter
